import Mathlib

/-!
# A shallow embedding of the adaptive-cards codec and version validator

This file models the core of the `pkg/adaptivecards` package of
stakater/prometheus-msteams: the reflection-driven polymorphic JSON codec
(`SmartMarshalFromJSON` / `marshalWithType` / `SmartUnmarshalJSON` and its
per-field helpers, the multi-shape scalar codecs of `TargetElement` and
`GridColumnWidth`, and the `unmarshalFallback` ordered-trial decoder) and the
recursive version validator (`ParseVersion`, `ValidateVersion`,
`validateStruct`, `isZeroValue`).

Modelling conventions:
* JSON byte streams are modelled as an inductive `Json` tree; numbers carry an
  exact decimal mantissa/exponent pair (`JNum`) instead of IEEE floats, enough
  to express the whole-number test `v != float64(int(v))` the source performs.
* Go runtime values seen through `reflect` are modelled by `GoVal`; struct
  values carry, per field, the static metadata (`GoFieldMeta`: Go field name,
  `json:"..."` tag, `version:"..."` tag, exportedness, anonymity and the
  field's declared type `GoType`) that the reflection code reads from
  `reflect.StructField`.
* Struct type descriptors live in a finite environment `structEnv`, mirroring
  what `reflect` recovers from a type, and the dynamic-unmarshaling registry
  populated by the package's `init` (plus `workflow.go`) is the association
  list `typeRegistry`.  Interface satisfaction (which concrete types declare
  `isElement()`, `isAction()`, ...) is tabulated from the source.
* Functions that recurse through JSON trees or the type environment take a
  `fuel : Nat` argument and return an out-of-fuel error when it runs out; the
  Go originals recurse unboundedly.  Nil and empty slices/maps are not
  distinguished (both are the zero value for the omitempty and version checks
  performed here).  JSON object keys are matched exactly (the Go decoder also
  accepts case-insensitive matches; no payload in this file relies on that).
* `encoding/json` primitives (`json.Unmarshal` into `string`, `any`,
  `[]json.RawMessage`, struct pointers, `json.Marshal` of a `map[string]any`
  with its sorted keys) are modelled by the `tryStringInto`, `decodeIntoAny`,
  `asRawMessages`, `stdUnmarshal` and `sortByKey`/`marshalValue` functions,
  following their documented behaviour, including that `null` is a no-op that
  leaves the target value unchanged and that a custom `UnmarshalJSON` /
  `MarshalJSON` method is resolved through pointers.
-/

/-! ## JSON values -/

/-- An exact decimal number `mantissa * 10 ^ exponent`, modelling the numeric
literals that `encoding/json` reads (it parses them as `float64`; the exact
decimal form is enough to express the whole-number test the source makes). -/
structure JNum where
  mantissa : Int
  exponent : Int := 0
deriving DecidableEq, Repr

/-- Whether the decimal denotes a whole number; models Go's
`v != float64(int(v))` test (negated). -/
def JNum.isWhole (x : JNum) : Bool :=
  if 0 ≤ x.exponent then true
  else x.mantissa % ((10 : Int) ^ (-x.exponent).toNat) == 0

/-- Truncation to an integer, modelling Go's `int(v)` conversion on a
`float64`.  Written so that `toInt ⟨n, 0⟩` is definitionally `n`. -/
def JNum.toInt (x : JNum) : Int :=
  if x.exponent = 0 then x.mantissa
  else if 0 ≤ x.exponent then x.mantissa * (10 : Int) ^ x.exponent.toNat
  else x.mantissa / ((10 : Int) ^ (-x.exponent).toNat)

/-- A parsed JSON document: the wire format of the codec. -/
inductive Json where
  | null
  | boolean (b : Bool)
  | num (x : JNum)
  | str (s : String)
  | arr (elems : List Json)
  | obj (members : List (String × Json))
deriving Repr

/-- Look up a key in a JSON object's member list.  Later duplicates win,
mirroring `json.Unmarshal` into a Go map, where a repeated key overwrites the
earlier entry. -/
def lookupLast (ms : List (String × Json)) (key : String) : Option Json :=
  match ms with
  | [] => none
  | (k, v) :: rest =>
    match lookupLast rest key with
    | some r => some r
    | none => if k == key then some v else none

/-! ## Go errors

`GoErr` models the error values the package creates: its two custom error
types, `fmt.Errorf` messages (with `%w` wrapping as `wrap`) and two-argument
`errors.Join` (as `join`; the n-ary joins in `ValidateTypes` are folded from
it, which is equivalent for the only inspection performed, `errors.As`). -/

inductive GoErr where
  | msg (s : String)
  /-- `AdaptiveCardErrorUnknown`: the discriminant is not in the registry. -/
  | unknownType (t : String)
  /-- `AdaptiveCardErrorInvalid`: an explicit "type" key disagrees with the
  decode target (expected discriminant, actual discriminant). -/
  | invalidType (expected : String) (actual : String)
  | wrap (context : String) (inner : GoErr)
  | join (first : GoErr) (second : GoErr)
deriving DecidableEq, Repr

/-- Models `errors.As(err, &AdaptiveCardErrorUnknown{})`: search the wrap/join
tree for an `AdaptiveCardErrorUnknown`. -/
def isUnknownErr : GoErr → Bool
  | .unknownType _ => true
  | .wrap _ inner => isUnknownErr inner
  | .join a b => isUnknownErr a || isUnknownErr b
  | _ => false

/-! ## Go types and values under reflection -/

/-- The declared (static) type of a struct field, as the reflection code sees
it through `reflect.StructField.Type`.  Struct types are referenced by name
and resolved in `structEnv`; `iface` covers the six polymorphic interfaces and
`any` (`iface "any"`); named string/enumeration types have string kind. -/
inductive GoType where
  | str
  | boolean
  | int
  | float
  | ptr (elem : GoType)
  | slice (elem : GoType)
  | strMap
  | struct (tname : String)
  | iface (iname : String)
deriving DecidableEq, Repr

/-- Static struct-field metadata: the Go field name, the raw `json:"..."` and
`version:"..."` tags, exportedness and embedding, and the declared type. -/
structure GoFieldMeta where
  name : String
  jsonTag : String
  versionTag : String
  ftype : GoType
  exported : Bool := true
  anonymous : Bool := false
deriving DecidableEq, Repr

/-- A Go runtime value as traversed by `reflect`.  `ptr`/`ptrNil` are pointer
values, `iface`/`ifaceNil` interface values (including `any`) with their boxed
dynamic value, `fallbackOption` a value of the named string type
`FallbackOption`, `strMap` a `map[string]string`, `anyMap` a
`map[string]any`, and `struct` a struct value carrying its type name and its
fields (metadata plus current value, in declaration order).  Nil and empty
slices/maps are identified. -/
inductive GoVal where
  | str (s : String)
  | boolean (b : Bool)
  | int (n : Int)
  | float (x : JNum)
  | fallbackOption (s : String)
  | ptrNil
  | ptr (v : GoVal)
  | ifaceNil
  | iface (v : GoVal)
  | slice (xs : List GoVal)
  | strMap (entries : List (String × String))
  | anyMap (entries : List (String × GoVal))
  | struct (tname : String) (fields : List (GoFieldMeta × GoVal))
deriving Repr

/-! ## Small string helpers (models of `strings` / `strconv` stdlib calls) -/

/-- Byte-wise (scalar-wise) strict order on character lists, modelling the
`string` order `sort.Strings` uses for `encoding/json`'s map keys. -/
def ltChars : List Char → List Char → Bool
  | [], [] => false
  | [], _ :: _ => true
  | _ :: _, [] => false
  | a :: as, b :: bs => if a < b then true else if b < a then false else ltChars as bs

/-- String order used when the map built by `marshalWithType` is serialized. -/
def ltStr (a b : String) : Bool := ltChars a.data b.data

/-- Models `strings.Split(s, sep)` for a single-character separator. -/
def splitOnChar (sep : Char) (s : String) : List String :=
  go s.data []
where
  go : List Char → List Char → List String
    | [], acc => [String.mk acc.reverse]
    | c :: rest, acc =>
      if c = sep then String.mk acc.reverse :: go rest []
      else go rest (c :: acc)

/-- Models `strings.HasSuffix s suffix` for the two-character suffix "px". -/
def hasSuffixPx (s : String) : Bool :=
  match s.data.reverse with
  | 'x' :: 'p' :: _ => true
  | _ => false

/-- Digit-string value, or `none` if empty or a non-digit appears. -/
def digitsToNat : List Char → Option Nat
  | [] => none
  | cs => go cs 0
where
  go : List Char → Nat → Option Nat
    | [], acc => some acc
    | c :: rest, acc =>
      if '0' ≤ c ∧ c ≤ '9' then go rest (acc * 10 + (c.toNat - '0'.toNat))
      else none

/-- Models `strconv.Atoi`: an optional sign followed by at least one digit
(range errors of the 64-bit original are out of scope). -/
def atoi (s : String) : Option Int :=
  match s.data with
  | '+' :: rest => (digitsToNat rest).map Int.ofNat
  | '-' :: rest => (digitsToNat rest).map (fun n => -(n : Int))
  | cs => (digitsToNat cs).map Int.ofNat

/-! ## Version parsing and comparison (`version.go`) -/

/-- `Version` represents an Adaptive Card schema version. -/
structure Version where
  major : Int
  minor : Int
deriving DecidableEq, Repr

/-- `ParseVersion` parses "major.minor"; any other shape is an error
(modelled as `none`). -/
def ParseVersion (v : String) : Option Version :=
  match splitOnChar '.' v with
  | [majStr, minStr] =>
    match atoi majStr with
    | none => none
    | some major =>
      match atoi minStr with
      | none => none
      | some minor => some ⟨major, minor⟩
  | _ => none

/-- `Version.Compare`: -1, 0 or 1 by (major, minor) lexicographic order. -/
def Version.compare (v other : Version) : Int :=
  if v.major < other.major then -1
  else if v.major > other.major then 1
  else if v.minor < other.minor then -1
  else if v.minor > other.minor then 1
  else 0

/-- `Version.SupportsVersion`: `v.Compare(required) >= 0`. -/
def Version.supportsVersion (v required : Version) : Bool :=
  decide (v.compare required ≥ 0)

/-- `ValidationError`: one version-compatibility violation. -/
structure ValidationError where
  fieldName : String
  requiredVersion : Version
  cardVersion : Version
deriving DecidableEq, Repr

/-! ## The version validator (`validateStruct`, `isZeroValue`) -/

/-- `isZeroValue` from `version.go`: the kind-based zero test.  Struct kinds
(and any kind outside the switch) report `false`. -/
def isZeroValue : GoVal → Bool
  | .str s => s == ""
  | .fallbackOption s => s == ""
  | .slice xs => xs.isEmpty
  | .strMap m => m.isEmpty
  | .anyMap m => m.isEmpty
  | .boolean b => !b
  | .int n => n == 0
  | .float x => x.mantissa == 0
  | .ptrNil => true
  | .ptr _ => false
  | .ifaceNil => true
  | .iface _ => false
  | .struct _ _ => false

/-- The pointer-dereferencing loop heading `validateStruct`: follow pointers,
reporting `none` when a nil pointer is found. -/
def derefPtrChain : GoVal → Option GoVal
  | .ptrNil => none
  | .ptr v => derefPtrChain v
  | v => some v

/-- `validateStruct` from `version.go`: dereference pointers (nil gives no
errors), return nothing for non-structs, then walk the fields: skip
unexported fields, emit a violation when a `version` tag is present, the
field is populated and the card version does not support the requirement,
then recurse by kind.  Only struct, pointer and slice kinds are recursed
into (slice elements under the name `field[index]`); in particular
interface-typed fields and interface-typed slice elements fall through the
kind switch. -/
def validateStruct : Nat → GoVal → Version → String → List ValidationError
  | 0, _, _, _ => []
  | fuel + 1, val, cv, pre =>
    match derefPtrChain val with
    | none => []
    | some v =>
      match v with
      | .struct _ fields =>
        fields.foldr
          (fun mv acc =>
            (if mv.1.exported then
              let fieldName :=
                if pre == "" then mv.1.name else pre ++ "." ++ mv.1.name
              (if mv.1.versionTag ≠ "" ∧ ¬ (isZeroValue mv.2 = true) then
                match ParseVersion mv.1.versionTag with
                | some req =>
                  if cv.supportsVersion req then [] else [⟨fieldName, req, cv⟩]
                | none => []
              else []) ++
              (match mv.2 with
               | .struct _ _ => validateStruct fuel mv.2 cv fieldName
               | .ptrNil => []
               | .ptr _ => validateStruct fuel mv.2 cv fieldName
               | .slice xs =>
                 (xs.enum.map (fun iv =>
                   validateStruct fuel iv.2 cv
                     (fieldName ++ "[" ++ toString iv.1 ++ "]"))).flatten
               | _ => [])
            else []) ++ acc)
          []
      | _ => []

/-- `ValidateVersion`: parse the card version (a parse failure yields the
single sentinel violation the source builds from zero `Version` values), then
walk the value with an empty prefix. -/
def ValidateVersion (fuel : Nat) (v : GoVal) (cardVersion : String) :
    List ValidationError :=
  match ParseVersion cardVersion with
  | none => [⟨"version", ⟨0, 0⟩, ⟨0, 0⟩⟩]
  | some cv => validateStruct fuel v cv ""

/-! ## Field metadata of the modelled struct types

Transcribed from the struct declarations in the source (`adaptivecards.go`,
`workflow.go`): Go field name, `json` tag, `version` tag, declared type. -/

/-- Shorthand for a plain exported field's metadata. -/
def fm (name jsonTag versionTag : String) (ftype : GoType) : GoFieldMeta :=
  { name := name, jsonTag := jsonTag, versionTag := versionTag, ftype := ftype }

/-- Fields of the composed group `Common` (shared element attributes). -/
def commonMetas : List GoFieldMeta :=
  [ fm "Fallback" "fallback,omitempty" "1.2" (.iface "any"),
    fm "GridArea" "grid.area,omitempty" "1.5" .str,
    fm "Height" "height,omitempty" "1.1" (.ptr .str),
    fm "HorizontalAlignment" "horizontalAlignment,omitempty" "1.0" (.ptr .str),
    fm "ID" "id,omitempty" "1.0" .str,
    fm "IsSortKey" "isSortKey,omitempty" "1.5" .boolean,
    fm "IsVisible" "isVisible,omitempty" "1.2" .boolean,
    fm "IsVisibleDynamic" "isVisible.dynamic,omitempty" "1.5" .boolean,
    fm "Key" "key,omitempty" "1.0" .str,
    fm "Lang" "lang,omitempty" "1.1" .str,
    fm "Requires" "requires,omitempty" "1.2" (.ptr (.struct "Requires")),
    fm "Separator" "separator,omitempty" "1.0" .boolean,
    fm "Spacing" "spacing,omitempty" "1.0" (.ptr .str),
    fm "TargetWidth" "targetWidth,omitempty" "1.0" (.ptr .str) ]

/-- Fields of `TextBlock` (the embedded `*Common` first, then the declared
fields, in source order). -/
def textBlockMetas : List GoFieldMeta :=
  [ { name := "Common", jsonTag := "", versionTag := "",
      ftype := .ptr (.struct "Common"), anonymous := true },
    fm "LabelFor" "labelFor,omitempty" "1.5" .str,
    fm "MaxLines" "maxLines,omitempty" "" .int,
    fm "Style" "style,omitempty" "1.5" (.ptr .str),
    fm "Wrap" "wrap,omitempty" "" .boolean,
    fm "Color" "color,omitempty" "" (.ptr .str),
    fm "FontType" "fontType,omitempty" "1.2" (.ptr .str),
    fm "Size" "size,omitempty" "" (.ptr .str),
    fm "Weight" "weight,omitempty" "" (.ptr .str),
    fm "IsSubtle" "isSubtle,omitempty" "" (.ptr .boolean),
    fm "Text" "text" "" (.ptr .str),
    fm "TextDynamic" "text.dynamic,omitempty" "1.5" (.ptr .str) ]

/-- Fields of the composed group `CommonActionProperties`. -/
def commonActionMetas : List GoFieldMeta :=
  [ fm "Fallback" "fallback,omitempty" "1.2" (.iface "any"),
    fm "IconURL" "iconUrl,omitempty" "1.1" .str,
    fm "ID" "id,omitempty" "" .str,
    fm "IsEnabled" "isEnabled,omitempty" "1.5" (.ptr .boolean),
    fm "IsEnabledDynamic" "isEnabled.dynamic,omitempty" "1.5" (.ptr .boolean),
    fm "IsVisible" "isVisible,omitempty" "1.5" (.ptr .boolean),
    fm "IsVisibleDynamic" "isVisible.dynamic,omitempty" "1.5" (.ptr .boolean),
    fm "Key" "key,omitempty" "1.0" .str,
    fm "MenuActions" "menuActions,omitempty" "1.5" (.slice (.iface "Action")),
    fm "Mode" "mode,omitempty" "1.5" (.ptr .str),
    fm "Requires" "requires,omitempty" "1.2" .strMap,
    fm "Style" "style,omitempty" "1.2" (.ptr .str),
    fm "ThemedIconURLs" "themedIconUrls,omitempty" "1.5" (.slice (.struct "ThemedURL")),
    fm "Title" "title,omitempty" "" .str,
    fm "TitleDynamic" "title.dynamic,omitempty" "1.5" .str,
    fm "Tooltip" "tooltip,omitempty" "1.5" .str,
    fm "TooltipDynamic" "tooltip.dynamic,omitempty" "1.5" .str ]

/-- Fields of `ActionOpenURL`. -/
def actionOpenURLMetas : List GoFieldMeta :=
  [ { name := "CommonActionProperties", jsonTag := "", versionTag := "",
      ftype := .ptr (.struct "CommonActionProperties"), anonymous := true },
    fm "URL" "url" "" .str ]

/-- Fields of `TargetElement` (the toggle-visibility target). -/
def targetElementMetas : List GoFieldMeta :=
  [ fm "ElementID" "elementId" "" .str,
    fm "IsVisible" "isVisible,omitempty" "" (.ptr .boolean) ]

/-- Fields of the document root `AdaptiveCard`, in source order. -/
def adaptiveCardMetas : List GoFieldMeta :=
  [ fm "Schema" "$schema,omitempty" "" .str,
    fm "Actions" "actions,omitempty" "" (.slice (.iface "Action")),
    fm "Authentication" "authentication,omitempty" "1.4" (.ptr (.struct "Authentication")),
    fm "Body" "body,omitempty" "" (.slice (.iface "Element")),
    fm "FallbackText" "fallbackText,omitempty" "" .str,
    fm "Metadata" "metadata,omitempty" "1.4" (.ptr (.struct "Metadata")),
    fm "MsTeams" "msteams,omitempty" "1.0" (.ptr (.struct "TeamsCardProperties")),
    fm "References" "references,omitempty" "1.5" (.slice (.iface "Reference")),
    fm "Refresh" "refresh,omitempty" "1.4" (.ptr (.struct "Refresh")),
    fm "Resources" "resources,omitempty" "1.5" (.ptr (.struct "Resources")),
    fm "Speak" "speak,omitempty" "" .str,
    fm "Version" "version" "" .str,
    fm "BackgroundImage" "backgroundImage,omitempty" "1.2" (.ptr (.struct "BackgroundImage")),
    fm "Fallback" "fallback,omitempty" "1.2" (.iface "any"),
    fm "GridArea" "grid.area,omitempty" "1.5" (.ptr (.struct "LayoutAreaGrid")),
    fm "ID" "id,omitempty" "" .str,
    fm "IsSortKey" "isSortKey,omitempty" "1.5" .boolean,
    fm "Key" "key,omitempty" "" .str,
    fm "Lang" "lang,omitempty" "1.1" .str,
    fm "Layouts" "layouts,omitempty" "1.5" (.ptr (.iface "Layout")),
    fm "MinHeight" "minHeight,omitempty" "1.2" .str,
    fm "Requires" "requires,omitempty" "1.2" (.ptr (.struct "Requires")),
    fm "RTL" "rtl,omitempty" "1.5" (.ptr .boolean),
    fm "SelectAction" "selectAction,omitempty" "1.1" (.iface "Action"),
    fm "Style" "style,omitempty" "" (.ptr .str),
    fm "VerticalContentAlignment" "verticalContentAlignment,omitempty" "1.1" (.ptr .str) ]

/-- The zero `GoVal` for a field's declared type, shallowly (struct fields are
expanded through `structEnvZero` below where needed; for the validator cards
all values are written out explicitly). -/
def shallowZero : GoType → GoVal
  | .str => .str ""
  | .boolean => .boolean false
  | .int => .int 0
  | .float => .float ⟨0, 0⟩
  | .ptr _ => .ptrNil
  | .slice _ => .slice []
  | .strMap => .strMap []
  | .struct tn => .struct tn []
  | .iface _ => .ifaceNil

/-- Build a struct value from metadata and overrides: each field takes the
overriding value when given and the shallow zero of its declared type
otherwise. -/
def mkStruct (tname : String) (metas : List GoFieldMeta)
    (overrides : List (String × GoVal)) : GoVal :=
  .struct tname (metas.map fun m =>
    (m, match overrides.lookup m.name with
        | some v => v
        | none => shallowZero m.ftype))

/-! ### Concrete cards for the validator claims -/

/-- `AdaptiveCard{Version: "1.0", RTL: AsPtr(true)}`: the card of the spec's
version-violation property. -/
def rtlCard : GoVal :=
  mkStruct "AdaptiveCard" adaptiveCardMetas
    [("Version", .str "1.0"), ("RTL", .ptr (.boolean true))]

/-- The `TextBlock{Text: AsPtr("Invalid"), Style: AsPtr("heading")}` element
of the package documentation's Example 3 (VERSION_VALIDATION.md). -/
def ex3TextBlock : GoVal :=
  mkStruct "TextBlock" textBlockMetas
    [("Style", .ptr (.str "heading")), ("Text", .ptr (.str "Invalid"))]

/-- Example 3 of VERSION_VALIDATION.md: a card claiming version "1.0" that
uses `RTL` (1.5) and, inside its body, `TextBlock.Style` (1.5).  The body
element sits in a `[]Element` slice, so the slice item has interface kind. -/
def ex3Card : GoVal :=
  mkStruct "AdaptiveCard" adaptiveCardMetas
    [("Version", .str "1.0"), ("RTL", .ptr (.boolean true)),
     ("Body", .slice [.iface ex3TextBlock])]

/-- `AdaptiveCard.Validate`: validate the card against its own declared
version (the `Version` field's value). -/
def cardValidate (fuel : Nat) (card : GoVal) (declaredVersion : String) :
    List ValidationError :=
  ValidateVersion fuel card declaredVersion

/-! ### Sanity checks for the version machinery -/

example : ParseVersion "1.5" = some ⟨1, 5⟩ := rfl
example : ParseVersion "invalid" = none := rfl
example : ParseVersion "1" = none := rfl
example : ParseVersion "1.2.3" = none := rfl
example : Version.compare ⟨1, 5⟩ ⟨1, 2⟩ = 1 := rfl
example : Version.supportsVersion ⟨1, 2⟩ ⟨1, 5⟩ = false := rfl
example : Version.supportsVersion ⟨1, 5⟩ ⟨1, 2⟩ = true := rfl

/-! ## Claim theorems: version validator -/

/-- **C9** — Validating `AdaptiveCard{Version: "1.0", RTL: AsPtr(true)}`, whose
only populated version-gated field is `rtl` (Go field `RTL`, requirement
"1.5"), returns exactly one violation: that field, required version 1.5,
declared version 1.0. -/
theorem claim_C9_rtl_violation :
    cardValidate 8 rtlCard "1.0" = [⟨"RTL", ⟨1, 5⟩, ⟨1, 0⟩⟩] := by
  rfl

/-- **C2** — The claimed full recursive traversal does not happen: on the
package documentation's own Example 3 card (version "1.0", `RTL` set, and a
body `TextBlock` whose `Style` field requires "1.5"), `Validate` returns only
the `RTL` violation.  The `TextBlock.Style` violation the documentation
promises is missing, because the body's elements are interface-typed slice
items and `validateStruct`'s kind switch recurses only into struct, pointer
and slice kinds, never into interface kind. -/
theorem claim_C2_interface_fields_skipped :
    cardValidate 8 ex3Card "1.0" = [⟨"RTL", ⟨1, 5⟩, ⟨1, 0⟩⟩] := by
  rfl

/-! ## The variant registry (`init` in `adaptivecards.go` plus `workflow.go`)

Maps wire discriminants to concrete struct type names.  The registration made
by a test file (`CustomContainer`) is not part of the package and is left
out. -/

def typeRegistry : List (String × String) :=
  [ ("AdaptiveCard", "AdaptiveCard"),
    ("ActionSet", "ActionSet"), ("Badge", "Badge"), ("CodeBlock", "CodeBlock"),
    ("Container", "Container"), ("ColumnSet", "ColumnSet"), ("Column", "Column"),
    ("FactSet", "FactSet"), ("Icon", "Icon"), ("Image", "Image"),
    ("ImageSet", "ImageSet"), ("Media", "Media"), ("Rating", "Rating"),
    ("RichTextBlock", "RichTextBlock"), ("Table", "Table"), ("TextBlock", "TextBlock"),
    ("Input.ChoiceSet", "InputChoiceSet"), ("Input.Date", "InputDate"),
    ("Input.Number", "InputNumber"), ("Input.Rating", "InputRating"),
    ("Input.Text", "InputText"), ("Input.Time", "InputTime"),
    ("Input.Toggle", "InputToggle"),
    ("TextRun", "TextRun"), ("CitationRun", "CitationRun"),
    ("IconRun", "IconRun"), ("ImageRun", "ImageRun"),
    ("Action.Execute", "ActionExecute"), ("Action.InsertImage", "ActionInsertImage"),
    ("Action.OpenUrl", "ActionOpenURL"), ("Action.OpenUrlDialog", "ActionOpenURLDialog"),
    ("Action.Popover", "ActionPopover"), ("Action.ResetInputs", "ActionResetInputs"),
    ("Action.RunCommands", "ActionRunCommands"), ("Action.ShowCard", "ActionShowCard"),
    ("Action.Submit", "ActionSubmit"), ("Action.ToggleVisibility", "ActionToggleVisibility"),
    ("imBack", "ImBackSubmitActionData"), ("messageBack", "MessageBackSubmitActionData"),
    ("invoke", "InvokeSubmitActionData"), ("task/fetch", "TaskFetchSubmitActionData"),
    ("signin", "SigninSubmitActionData"),
    ("AdaptiveCardReference", "AdaptiveCardReference"),
    ("DocumentReference", "DocumentReference"),
    ("Layout.Stack", "LayoutStack"), ("Layout.Flow", "LayoutFlow"),
    ("Layout.AreaGrid", "LayoutAreaGrid"), ("StringResource", "StringResource"),
    ("message", "WorkflowConnectorCard") ]

/-- Registry lookup by discriminant (`typeRegistry[typeCheck.Type]`). -/
def registryLookup (t : String) : Option String :=
  (typeRegistry.find? (fun kv => kv.1 == t)).map (fun kv => kv.2)

/-- `FindMapKey(typeRegistry, sourceType)`: the reverse lookup used by the
marshaller and by `ValidateType`.  The source iterates the Go map in
unspecified order; since no two discriminants map to the same type the result
is deterministic. -/
def FindMapKey (tname : String) : Option String :=
  (typeRegistry.find? (fun kv => kv.2 == tname)).map (fun kv => kv.1)

/-- Struct type descriptors recovered by `reflect`, for the types this file's
concrete payloads exercise. -/
def structEnv : String → Option (List GoFieldMeta)
  | "Common" => some commonMetas
  | "TextBlock" => some textBlockMetas
  | "CommonActionProperties" => some commonActionMetas
  | "ActionOpenURL" => some actionOpenURLMetas
  | "TargetElement" => some targetElementMetas
  | "AdaptiveCard" => some adaptiveCardMetas
  | _ => none

/-- Concrete types declaring `isElement()` in the source (`InputRating`
declares none, and the test-only `CustomContainer` is excluded). -/
def elementImplementers : List String :=
  [ "ActionSet", "Badge", "CodeBlock", "ColumnSet", "Column", "CompoundButton",
    "Container", "FactSet", "Icon", "Image", "ImageSet", "Media",
    "ProgressBar", "ProgressRing", "Rating", "RichTextBlock", "Table",
    "TextBlock", "InputChoiceSet", "InputDate", "InputNumber", "InputText",
    "InputTime", "InputToggle" ]

/-- Concrete types declaring `isAction()`. -/
def actionImplementers : List String :=
  [ "ActionExecute", "ActionInsertImage", "ActionOpenURL",
    "ActionOpenURLDialog", "ActionPopover", "ActionResetInputs",
    "ActionRunCommands", "ActionShowCard", "ActionSubmit",
    "ActionToggleVisibility" ]

/-- No concrete type in the source declares `isActionData()` (the interface
exists but none of the five submit-data structs implements it). -/
def actionDataImplementers : List String := []

/-- Concrete types declaring `isReference()`. -/
def referenceImplementers : List String :=
  ["AdaptiveCardReference", "DocumentReference"]

/-- Concrete types declaring `isLayout()`. -/
def layoutImplementers : List String :=
  ["LayoutStack", "LayoutFlow", "LayoutAreaGrid"]

/-- Concrete types declaring `isRichTextInline()`. -/
def richTextInlineImplementers : List String :=
  ["TextRun", "CitationRun", "IconRun", "ImageRun"]

/-- Whether the concrete struct type named `tn` implements the polymorphic
interface named `iname` (marker methods have value receivers, so both the
value and the pointer type implement). -/
def typeImplementsIface (tn iname : String) : Bool :=
  match iname with
  | "Element" => elementImplementers.contains tn
  | "Action" => actionImplementers.contains tn
  | "ActionData" => actionDataImplementers.contains tn
  | "Reference" => referenceImplementers.contains tn
  | "Layout" => layoutImplementers.contains tn
  | "RichTextInline" => richTextInlineImplementers.contains tn
  | _ => false

/-- `reflect.Type.Implements` for the declared types appearing in fields: an
interface implements itself (the six marker interfaces have disjoint method
sets, and `any` has none). -/
def implementsIface (t : GoType) (iname : String) : Bool :=
  match t with
  | .iface i => i == iname
  | .struct tn => typeImplementsIface tn iname
  | _ => false

/-- The first interface of the `sliceUnmarshalers`/`singleUnmarshalers`
tables (in their source order) that the type implements. -/
def interfaceFor (t : GoType) : Option String :=
  ["Element", "Action", "ActionData", "Reference", "Layout",
   "RichTextInline"].find? (implementsIface t)

/-- Types whose `MarshalJSON` is `SmartMarshalFromJSON(v)`
(`TaskFetchSubmitActionData` instead calls `marshalWithType(a, "task/fetch")`
directly, and `TargetElement`/`GridColumnWidth` have bespoke marshallers). -/
def smartMarshalTypes : List String :=
  [ "AdaptiveCard", "AdaptiveCardReference", "DocumentReference", "ActionSet",
    "Badge", "CodeBlock", "ColumnSet", "Column", "CompoundButton", "Container",
    "FactSet", "Icon", "Image", "ImageSet", "Media", "CaptionSource",
    "MediaSource", "ProgressBar", "ProgressRing", "Rating", "RichTextBlock",
    "TextRun", "CitationRun", "IconRun", "ImageRun", "Table",
    "TableColumnDefinition", "TableRow", "TableCell", "TextBlock",
    "ActionExecute", "ActionInsertImage", "ActionOpenURL",
    "ActionOpenURLDialog", "ActionPopover", "ActionResetInputs",
    "ActionRunCommands", "ActionShowCard", "ActionSubmit",
    "ActionToggleVisibility", "ImBackSubmitActionData",
    "MessageBackSubmitActionData", "InvokeSubmitActionData",
    "SigninSubmitActionData", "InputChoiceSet", "InputChoice", "DataQuery",
    "InputDate", "InputNumber", "InputRating", "InputText", "InputTime",
    "InputToggle", "Refresh", "TokenExchangeResource", "Authentication",
    "Metadata", "Mention", "LayoutStack", "LayoutFlow", "LayoutAreaGrid",
    "WorkflowConnectorCard" ]

/-- Types whose `UnmarshalJSON` is `SmartUnmarshalJSON(data, v)`;
`TargetElement` and `GridColumnWidth` have bespoke decoders, every other
struct type is decoded by the plain `encoding/json` rules. -/
def smartUnmarshalTypes : List String :=
  "TaskFetchSubmitActionData" :: smartMarshalTypes

/-! ## JSON struct-tag parsing (`parseJSONTag` and the marshaller's split) -/

/-- `parseJSONTag` from `unmarshal.go`: empty and "-" tags give no name,
otherwise the part before the first comma. -/
def parseJSONTag (tag : String) : String :=
  if tag == "" || tag == "-" then ""
  else String.mk (tag.data.takeWhile (fun c => c ≠ ','))

/-- The marshaller's `tagParts[0]`: the name part of a `json` tag. -/
def tagHead (tag : String) : String :=
  String.mk (tag.data.takeWhile (fun c => c ≠ ','))

/-- The marshaller's `len(tagParts) > 1 && tagParts[1] == "omitempty"`. -/
def tagOmitEmpty (tag : String) : Bool :=
  match splitOnChar ',' tag with
  | _ :: second :: _ => second == "omitempty"
  | _ => false

/-- `isEmptyValue` from `marshal.go`: textually the same kind switch as
`isZeroValue` in `version.go`. -/
def isEmptyValue : GoVal → Bool
  | .str s => s == ""
  | .fallbackOption s => s == ""
  | .slice xs => xs.isEmpty
  | .strMap m => m.isEmpty
  | .anyMap m => m.isEmpty
  | .boolean b => !b
  | .int n => n == 0
  | .float x => x.mantissa == 0
  | .ptrNil => true
  | .ptr _ => false
  | .ifaceNil => true
  | .iface _ => false
  | .struct _ _ => false

/-! ## The `map[string]any` built by `marshalWithType`, and its serialization -/

/-- Go map assignment `m[k] = v`: replace the binding if the key exists,
otherwise add it. -/
def mapSet (m : List (String × Json)) (k : String) (v : Json) :
    List (String × Json) :=
  match m with
  | [] => [(k, v)]
  | (k', v') :: rest =>
    if k' == k then (k, v) :: rest else (k', v') :: mapSet rest k v

/-- Insertion step of the key sort `encoding/json` applies to map keys. -/
def insertByKey (p : String × Json) : List (String × Json) →
    List (String × Json)
  | [] => [p]
  | q :: rest => if ltStr p.1 q.1 then p :: q :: rest else q :: insertByKey p rest

/-- `json.Marshal` emits a `map[string]any` with its keys in ascending string
order; modelled as an insertion sort of the association list. -/
def sortByKey : List (String × Json) → List (String × Json)
  | [] => []
  | p :: rest => insertByKey p (sortByKey rest)

/-- Field value of a struct `GoVal`, by Go field name. -/
def getFieldVal (fields : List (GoFieldMeta × GoVal)) (n : String) :
    Option GoVal :=
  (fields.find? (fun mv => mv.1.name == n)).map (fun mv => mv.2)

/-- The single pointer dereference applied to an embedded group value. -/
def derefEmbedded (v : GoVal) : GoVal :=
  match v with
  | .ptr x => x
  | x => x

/-! ## The marshaller (`SmartMarshalFromJSON`, `marshalWithType`)

`marshalValue` below is the model of `json.Marshal`'s encoder applied to one
of the package's values, with the package's `MarshalJSON` methods resolved by
struct type name.  The map-building loop of `marshalWithType` is
`buildFieldMap`/`buildEmbeddedMap`, parameterized by the encoder so the whole
pipeline recurses on `fuel` alone.  (The source stores raw field values in the
map and serializes them afterwards; the model serializes at insertion, which
is observably the same because no marshalled struct has two fields with one
JSON name.) -/

/-- The field loop of `marshalWithType` over an embedded (composed) group:
every exported tagged member is flattened into the enclosing map, subject to
the same omitempty policy. -/
def buildEmbeddedMap (mval : GoVal → Except GoErr Json) :
    List (GoFieldMeta × GoVal) → List (String × Json) →
    Except GoErr (List (String × Json))
  | [], m => .ok m
  | (meta, v) :: rest, m =>
    if !meta.exported then buildEmbeddedMap mval rest m
    else if meta.jsonTag == "" || meta.jsonTag == "-" then
      buildEmbeddedMap mval rest m
    else if tagOmitEmpty meta.jsonTag && isEmptyValue v then
      buildEmbeddedMap mval rest m
    else
      match mval v with
      | .error e => .error e
      | .ok jv => buildEmbeddedMap mval rest (mapSet m (tagHead meta.jsonTag) jv)

/-- The main field loop of `marshalWithType`: skip unexported fields, flatten
embedded groups (dereferencing a non-nil pointer first; a nil group
contributes nothing), and otherwise add each tagged field unless its
omitempty policy omits it. -/
def buildFieldMap (mval : GoVal → Except GoErr Json) :
    List (GoFieldMeta × GoVal) → List (String × Json) →
    Except GoErr (List (String × Json))
  | [], m => .ok m
  | (meta, v) :: rest, m =>
    if !meta.exported then buildFieldMap mval rest m
    else if meta.anonymous then
      match derefEmbedded v with
      | .struct _ efields =>
        match buildEmbeddedMap mval efields m with
        | .error e => .error e
        | .ok m' => buildFieldMap mval rest m'
      | _ => buildFieldMap mval rest m
    else if meta.jsonTag == "" || meta.jsonTag == "-" then
      buildFieldMap mval rest m
    else if tagOmitEmpty meta.jsonTag && isEmptyValue v then
      buildFieldMap mval rest m
    else
      match mval v with
      | .error e => .error e
      | .ok jv => buildFieldMap mval rest (mapSet m (tagHead meta.jsonTag) jv)

/-- `marshalWithType` given an encoder for the field values: seed the map with
the discriminant under "type", dereference pointers (marshalling just the
discriminant for a nil value), insist on a struct, run the field loop and
serialize the map with sorted keys. -/
def marshalWithTypeAux (mval : GoVal → Except GoErr Json) (v : GoVal)
    (typeName : String) : Except GoErr Json :=
  let m0 : List (String × Json) := [("type", Json.str typeName)]
  match derefPtrChain v with
  | none => .ok (Json.obj (sortByKey m0))
  | some v' =>
    match v' with
    | .struct _ fields =>
      match buildFieldMap mval fields m0 with
      | .error e => .error e
      | .ok m => .ok (Json.obj (sortByKey m))
    | _ => .error (.msg "marshalWithType requires a struct")

/-- `SmartMarshalFromJSON` given an encoder: find the discriminant registered
for the value's (pointer-dereferenced) type, then `marshalWithType`. -/
def smartMarshalAux (mval : GoVal → Except GoErr Json) (v : GoVal) :
    Except GoErr Json :=
  let tn? : Option String :=
    match v with
    | .ptr (.struct tn _) => some tn
    | .struct tn _ => some tn
    | _ => none
  match tn? with
  | none => .error (.msg "unable to find type in registry. Is it registered?")
  | some tn =>
    match FindMapKey tn with
    | none => .error (.msg "unable to find type in registry. Is it registered?")
    | some typeStr => marshalWithTypeAux mval v typeStr

/-- `json.Marshal`'s encoder on the package's values: scalars directly, nil
pointers and interfaces as `null`, maps with sorted keys, and structs through
the type's `MarshalJSON` method when it has one (`SmartMarshalFromJSON` for
the registered card types, the bespoke methods of `TargetElement` and
`GridColumnWidth`, the hard-coded `marshalWithType(a, "task/fetch")`),
falling back to plain field-order struct encoding for method-less types. -/
def marshalValue : Nat → GoVal → Except GoErr Json
  | 0, _ => .error (.msg "model: fuel exhausted")
  | fuel + 1, v =>
    match v with
    | .str s => .ok (.str s)
    | .fallbackOption s => .ok (.str s)
    | .boolean b => .ok (.boolean b)
    | .int n => .ok (.num ⟨n, 0⟩)
    | .float x => .ok (.num x)
    | .ptrNil => .ok .null
    | .ifaceNil => .ok .null
    | .ptr x => marshalValue fuel x
    | .iface x => marshalValue fuel x
    | .slice xs => (xs.mapM (marshalValue fuel)).map Json.arr
    | .strMap entries =>
      .ok (.obj (sortByKey (entries.map (fun kv => (kv.1, Json.str kv.2)))))
    | .anyMap entries =>
      (entries.mapM (fun kv => (marshalValue fuel kv.2).map (fun j => (kv.1, j)))).map
        (fun l => Json.obj (sortByKey l))
    | .struct tname fields =>
      if tname == "TargetElement" then
        -- TargetElement.MarshalJSON: the bare string when IsVisible is nil,
        -- otherwise SmartMarshalFromJSON (and TargetElement is unregistered).
        match getFieldVal fields "IsVisible" with
        | some .ptrNil =>
          match getFieldVal fields "ElementID" with
          | some (.str s) => .ok (.str s)
          | _ => .error (.msg "model: malformed TargetElement value")
        | _ => smartMarshalAux (marshalValue fuel) (.struct tname fields)
      else if tname == "GridColumnWidth" then
        -- GridColumnWidth.MarshalJSON: json.Marshal(w.Value).
        match getFieldVal fields "Value" with
        | some (.iface x) => marshalValue fuel x
        | some .ifaceNil => .ok .null
        | _ => .error (.msg "model: malformed GridColumnWidth value")
      else if tname == "TaskFetchSubmitActionData" then
        marshalWithTypeAux (marshalValue fuel) (.struct tname fields) "task/fetch"
      else if smartMarshalTypes.contains tname then
        smartMarshalAux (marshalValue fuel) (.struct tname fields)
      else
        -- Plain encoding/json struct encoding (no method): tagged exported
        -- fields in declaration order under the omitempty policy.
        (fields.filterMap (fun mv =>
          if mv.1.exported ∧ ¬ (mv.1.jsonTag == "" || mv.1.jsonTag == "-") ∧
             ¬ (tagOmitEmpty mv.1.jsonTag && isEmptyValue mv.2) = true then
            some mv else none)).mapM
          (fun mv => (marshalValue fuel mv.2).map
            (fun j => (tagHead mv.1.jsonTag, j))) |>.map Json.obj

/-- `SmartMarshalFromJSON` at a given recursion budget. -/
def SmartMarshalFromJSON (fuel : Nat) (v : GoVal) : Except GoErr Json :=
  smartMarshalAux (marshalValue fuel) v

/-! ## Decoder primitives -/

/-- Models `json.Unmarshal(payload, &someString)` against a prior value:
a JSON string stores its contents, `null` is a no-op that keeps the prior
value, anything else is a type error (`none`). -/
def tryStringInto (j : Json) (prior : String) : Option String :=
  match j with
  | .str s => some s
  | .null => some prior
  | _ => none

/-- Models `json.Unmarshal(data, &typeCheck)` for the probe struct
`AdaptiveCardType{Type string}` (used by `getCardType` and `ValidateType`):
requires an object (or `null`), reads an optional string under "type". -/
def getCardType (j : Json) : Except GoErr String :=
  match j with
  | .obj ms =>
    match lookupLast ms "type" with
    | some (.str s) => .ok s
    | some .null => .ok ""
    | some _ =>
      .error (.join (.msg "failed to detect element type")
        (.msg "json: cannot unmarshal value into Go struct field of type string"))
    | none => .ok ""
  | .null => .ok ""
  | _ =>
    .error (.join (.msg "failed to detect element type")
      (.msg "json: cannot unmarshal value into Go value of struct type"))

/-- Models `json.Unmarshal(rawData, &rawMessages)` for
`[]json.RawMessage`: an array yields its (unparsed) elements, `null` leaves
the nil slice, anything else fails (`none`). -/
def asRawMessages (j : Json) : Option (List Json) :=
  match j with
  | .arr xs => some xs
  | .null => some []
  | _ => none

/-- Models `json.Unmarshal(data, &i)` for `i : any`: numbers become
`float64`, arrays `[]any`, objects `map[string]any`, `null` the nil
interface. -/
def decodeIntoAny : Nat → Json → Except GoErr GoVal
  | 0, _ => .error (.msg "model: fuel exhausted")
  | fuel + 1, j =>
    match j with
    | .null => .ok .ifaceNil
    | .boolean b => .ok (.iface (.boolean b))
    | .num x => .ok (.iface (.float x))
    | .str s => .ok (.iface (.str s))
    | .arr xs => (xs.mapM (decodeIntoAny fuel)).map (fun vs => .iface (.slice vs))
    | .obj ms =>
      (ms.mapM (fun kv => (decodeIntoAny fuel kv.2).map (fun v => (kv.1, v)))).map
        (fun l => .iface (.anyMap l))

/-- The zero value of a declared type, with struct fields expanded through
the environment (the `var x T` a decode target starts from). -/
def zeroOfType (fuel : Nat) (t : GoType) : GoVal :=
  match t with
  | .str => .str ""
  | .boolean => .boolean false
  | .int => .int 0
  | .float => .float ⟨0, 0⟩
  | .ptr _ => .ptrNil
  | .slice _ => .slice []
  | .strMap => .strMap []
  | .iface _ => .ifaceNil
  | .struct tn =>
    match fuel with
    | 0 => .struct tn []
    | fuel + 1 =>
      match structEnv tn with
      | none => .struct tn []
      | some metas => .struct tn (metas.map (fun m => (m, zeroOfType fuel m.ftype)))

/-! ## The bespoke multi-shape codecs -/

/-- Outcome of running `TargetElement.UnmarshalJSON`: a result, an error, or
non-termination (the source's object branch re-enters itself). -/
inductive TEOutcome where
  | ok (elementId : String) (isVisible : Option Bool)
  | err (e : GoErr)
  | diverged
deriving DecidableEq, Repr

/-- `TargetElement.UnmarshalJSON`.  The first attempt,
`json.Unmarshal(data, &t.ElementID)`, succeeds exactly on strings (and on
`null`, a no-op).  On failure the source calls `json.Unmarshal(data, &t)`
with `t` still a `*TargetElement`; the decoder resolves the pointer's own
`UnmarshalJSON` method and re-invokes it on the same bytes, so the call
recurses with unchanged input: running out of fuel here models genuine
non-termination, not an approximation. -/
def TargetElementUnmarshalJSON : Nat → Json → String → Option Bool → TEOutcome
  | 0, _, _, _ => .diverged
  | fuel + 1, data, elementId, isVisible =>
    match data with
    | .str s => .ok s isVisible
    | .null => .ok elementId isVisible
    | _ => TargetElementUnmarshalJSON fuel data elementId isVisible

/-- A `TargetElement` value (fields paired with their source metadata). -/
def teVal (elementId : String) (isVisible : Option Bool) : GoVal :=
  .struct "TargetElement"
    [ (fm "ElementID" "elementId" "" .str, .str elementId),
      (fm "IsVisible" "isVisible,omitempty" "" (.ptr .boolean),
        match isVisible with | none => .ptrNil | some b => .ptr (.boolean b)) ]

/-- The `Value any` field of `GridColumnWidth` (tag "-"). -/
def gcwValueMeta : GoFieldMeta := fm "Value" "-" "" (.iface "any")

/-- A `GridColumnWidth` value wrapping its stored `Value`. -/
def gcwVal (stored : GoVal) : GoVal :=
  .struct "GridColumnWidth" [(gcwValueMeta, stored)]

/-- `GridColumnWidth.UnmarshalJSON`: decode into `any`, then accept a whole
number (storing `int(v)`) or a string with the "px" suffix (storing the
string), rejecting fractional numbers and every other JSON type with the
source's respective messages. -/
def GridColumnWidthUnmarshalJSON (fuel : Nat) (j : Json) : Except GoErr GoVal :=
  match decodeIntoAny fuel j with
  | .error e => .error e
  | .ok i =>
    match i with
    | .iface (.float x) =>
      if x.isWhole then .ok (gcwVal (.iface (.int x.toInt)))
      else .error (.msg "invalid value: GridColumnWidth must be a whole number")
    | .iface (.str s) =>
      if hasSuffixPx s then .ok (gcwVal (.iface (.str s)))
      else .error (.msg "invalid format: string values must end in px")
    | _ => .error (.msg "invalid type for GridColumnWidth")

/-! ## Type validation against the registry (`ValidateType`, `ValidateTypes`) -/

/-- `ValidateType`: probe the raw payload's "type" key, refuse interface
targets, dereference a pointer target, find the target's registered
discriminant, and reject an explicit mismatching "type" with
`AdaptiveCardErrorInvalid` (an absent or empty "type" passes). -/
def ValidateType (raw : Json) (sourceType : GoType) : Except GoErr Unit :=
  match getCardType raw with
  | .error e => .error e
  | .ok tcType =>
    match sourceType with
    | .iface _ =>
      .error (.msg "cannot validate against interface, defer to dynamic unmarshaling")
    | _ =>
      let st := match sourceType with | .ptr e => e | t => t
      match (match st with | .struct tn => FindMapKey tn | _ => none) with
      | none => .error (.msg "unable to find type in registry. Is it registered?")
      | some typeStr =>
        if tcType ≠ "" ∧ tcType ≠ typeStr then .error (.invalidType typeStr tcType)
        else .ok ()

/-- `ValidateTypes`: validate each raw item against the slice's element type,
collecting index-annotated errors; the source joins them with `errors.Join`,
modelled as a left fold of binary joins. -/
def ValidateTypes (raws : List Json) (sourceType : GoType) : Except GoErr Unit :=
  let elemT := match sourceType with | .slice e => e | t => t
  match raws.enum.filterMap (fun ir =>
    match ValidateType ir.2 elemT with
    | .error e =>
      some (GoErr.wrap ("validation failed for item at index " ++ toString ir.1) e)
    | .ok _ => none) with
  | [] => .ok ()
  | e :: rest => .error (rest.foldl GoErr.join e)

/-! ## The dynamic decoder

A single fueled core (`unmarshalCore`) answers two kinds of requests — plain
`encoding/json` decoding into a fresh value of a declared type (with the
package's `UnmarshalJSON` methods resolved by type name), and
`SmartUnmarshalJSON` into a zero struct.  Every helper from `unmarshal.go` is
modelled as a function of that core. -/

/-- A decoding request: `std t j` is `json.Unmarshal(j, new(T))`,
`smart tname j` is `SmartUnmarshalJSON(j, target)` on a zero target. -/
inductive UReq where
  | std (t : GoType) (j : Json)
  | smart (tname : String) (j : Json)

/-- `reflectUnmarshaling` given the core: probe the discriminant, resolve it
in the registry (`AdaptiveCardErrorUnknown` when absent), decode into a new
instance of the registered type and return the pointer to it. -/
def reflectUnmarshalingAux (core : UReq → Except GoErr GoVal) (j : Json) :
    Except GoErr GoVal :=
  match getCardType j with
  | .error e => .error e
  | .ok t =>
    match registryLookup t with
    | none => .error (.unknownType t)
    | some tname =>
      match core (.std (.struct tname) j) with
      | .error e => .error (.join (.msg ("failed to unmarshal " ++ t)) e)
      | .ok v => .ok (.ptr v)

/-- `dynamicUnmarshaling[T]` given the core: `reflectUnmarshaling`, then the
`regPtr.Interface().(T)` cast against the requested interface. -/
def dynamicUnmarshalingAux (core : UReq → Except GoErr GoVal) (iname : String)
    (j : Json) : Except GoErr GoVal :=
  match reflectUnmarshalingAux core j with
  | .error e => .error e
  | .ok v =>
    match v with
    | .ptr (.struct tn _) =>
      if typeImplementsIface tn iname then .ok v
      else .error (.msg "type does not implement interface")
    | _ => .error (.msg "model: unexpected dynamic value")

/-- `unmarshalMessage[T]` given the core: unknown discriminants are silently
ignored (`none`: the target is left unset), other errors are wrapped. -/
def unmarshalMessageAux (core : UReq → Except GoErr GoVal) (iname : String)
    (j : Json) : Except GoErr (Option GoVal) :=
  match dynamicUnmarshalingAux core iname j with
  | .ok v => .ok (some v)
  | .error e =>
    if isUnknownErr e then .ok none
    else .error (.wrap ("failed to unmarshal " ++ iname) e)

/-- `unmarshalMessages[T]` given the core: decode each element independently,
skipping unknown discriminants and aborting on the first other error (with
its index in the message). -/
def unmarshalMessagesAux (core : UReq → Except GoErr GoVal) (iname : String) :
    List Json → Nat → Except GoErr (List GoVal)
  | [], _ => .ok []
  | raw :: rest, i =>
    match dynamicUnmarshalingAux core iname raw with
    | .error e =>
      if isUnknownErr e then unmarshalMessagesAux core iname rest (i + 1)
      else .error (.wrap ("failed to unmarshal type at index " ++ toString i) e)
    | .ok item =>
      match unmarshalMessagesAux core iname rest (i + 1) with
      | .error e => .error e
      | .ok tail => .ok (item :: tail)

/-- `unmarshalFallback` given the core: try a bare string (the `null` no-op
leaves the zero string), then `Element`, then `Action`; a silently-ignored
unknown discriminant leaves the nil interface in the `any` slot. -/
def unmarshalFallbackAux (core : UReq → Except GoErr GoVal) (j : Json) :
    Except GoErr GoVal :=
  match tryStringInto j "" with
  | some s => .ok (.fallbackOption s)
  | none =>
    match unmarshalMessageAux core "Element" j with
    | .ok (some v) => .ok v
    | .ok none => .ok .ifaceNil
    | .error _ =>
      match unmarshalMessageAux core "Action" j with
      | .ok (some v) => .ok v
      | .ok none => .ok .ifaceNil
      | .error _ =>
        .error (.msg "fallback must be either FallbackOption, Element, or Action")

/-- `unmarshalSingle` given the core: decode into a new instance of the
field's declared type, joining errors with a context message. -/
def unmarshalSingleAux (core : UReq → Except GoErr GoVal) (t : GoType)
    (j : Json) : Except GoErr GoVal :=
  match core (.std t j) with
  | .error e => .error (.join (.msg "failed to unmarshal field type") e)
  | .ok v => .ok v

/-- `unmarshalSingleField` given the core: the concrete fast path when
`ValidateType` passes, otherwise dynamic decoding through the first matching
interface (where an ignored unknown discriminant leaves the field unset,
reported as `none`), otherwise the concrete fallback. -/
def unmarshalSingleFieldAux (core : UReq → Except GoErr GoVal) (t : GoType)
    (j : Json) : Except GoErr (Option GoVal) :=
  match ValidateType j t with
  | .ok _ =>
    match unmarshalSingleAux core t j with
    | .error e => .error e
    | .ok v => .ok (some v)
  | .error _ =>
    match interfaceFor t with
    | some iname =>
      match unmarshalMessageAux core iname j with
      | .error e => .error e
      | .ok none => .ok none
      | .ok (some v) =>
        match t with
        | .iface _ => .ok (some v)
        | _ => .error (.msg "panic: reflect Set of mismatched type")
    | none =>
      match unmarshalSingleAux core t j with
      | .error e => .error e
      | .ok v => .ok (some v)

/-- `unmarshalSlice` given the core: decode every element into a fresh value
of the element type, annotating failures with the index. -/
def unmarshalSliceAux (core : UReq → Except GoErr GoVal) (elemT : GoType) :
    List Json → Nat → Except GoErr (List GoVal)
  | [], _ => .ok []
  | raw :: rest, i =>
    match core (.std elemT raw) with
    | .error e =>
      .error (.join (.msg ("failed to unmarshal slice element " ++ toString i)) e)
    | .ok v =>
      match unmarshalSliceAux core elemT rest (i + 1) with
      | .error e => .error e
      | .ok tail => .ok (v :: tail)

/-- `unmarshalSliceField` given the core: the concrete path when every item
passes `ValidateTypes`, otherwise dynamic decoding when the element type
implements a known interface (the resulting elements are interface values; a
concrete element type would make the final `Set` panic), otherwise the
concrete fallback. -/
def unmarshalSliceFieldAux (core : UReq → Except GoErr GoVal) (elemT : GoType)
    (raws : List Json) : Except GoErr GoVal :=
  match ValidateTypes raws (.slice elemT) with
  | .ok _ =>
    match unmarshalSliceAux core elemT raws 0 with
    | .error e => .error e
    | .ok vs => .ok (.slice vs)
  | .error _ =>
    match interfaceFor elemT with
    | some iname =>
      match unmarshalMessagesAux core iname raws 0 with
      | .error e => .error e
      | .ok vs =>
        match elemT with
        | .iface _ => .ok (.slice (vs.map GoVal.iface))
        | _ => .error (.msg "panic: reflect Set of mismatched slice type")
    | none =>
      match unmarshalSliceAux core elemT raws 0 with
      | .error e => .error e
      | .ok vs => .ok (.slice vs)

/-- `unmarshalSliceFieldFromRaw` given the core: split the raw payload into
raw messages (falling back to plain decoding of the whole field when it is
not an array), then `unmarshalSliceField` with the field name as error
context. -/
def unmarshalSliceFieldFromRawAux (core : UReq → Except GoErr GoVal)
    (elemT : GoType) (rawData : Json) (fieldName : String) :
    Except GoErr GoVal :=
  match asRawMessages rawData with
  | none => core (.std (.slice elemT) rawData)
  | some raws =>
    match unmarshalSliceFieldAux core elemT raws with
    | .error e => .error (.wrap ("failed to unmarshal slice field " ++ fieldName) e)
    | .ok v => .ok v

/-- `unmarshalInterfaceFieldFromRaw` given the core: the "fallback" JSON name
selects the special tri-shape decoder (whose silently-ignored unknown leaves
a nil `any` that the subsequent `Set` panics on); other interface fields go
through `unmarshalSingleField`, keeping the current (zero) value when the
unknown-discriminant skip left nothing to set. -/
def unmarshalInterfaceFieldFromRawAux (core : UReq → Except GoErr GoVal)
    (iname : String) (rawData : Json) (fieldName : String) (cur : GoVal) :
    Except GoErr GoVal :=
  if fieldName == "fallback" then
    match unmarshalFallbackAux core rawData with
    | .error e =>
      .error (.wrap ("failed to unmarshal fallback field " ++ fieldName) e)
    | .ok v =>
      match v with
      | .ifaceNil => .error (.msg "panic: reflect: Set using zero Value argument")
      | _ => .ok (.iface v)
  else
    match unmarshalSingleFieldAux core (.iface iname) rawData with
    | .error e =>
      .error (.wrap ("failed to unmarshal interface field " ++ fieldName) e)
    | .ok none => .ok cur
    | .ok (some v) => .ok (.iface v)

/-- `unmarshalPointerFieldFromRaw` given the core: a pointer-to-interface
allocates the interface cell and decodes into it; an ordinary pointer
allocates a fresh pointee and runs plain decoding on it — in particular a
JSON `null` is a no-op on the fresh pointee, so the field becomes a pointer
to the zero value rather than staying nil. -/
def unmarshalPointerFieldFromRawAux (core : UReq → Except GoErr GoVal)
    (fuel : Nat) (elemT : GoType) (rawData : Json) (fieldName : String) :
    Except GoErr GoVal :=
  match elemT with
  | .iface iname =>
    match unmarshalSingleFieldAux core (.iface iname) rawData with
    | .error e =>
      .error (.wrap ("failed to unmarshal pointer-to-interface field " ++ fieldName) e)
    | .ok none => .ok (.ptr .ifaceNil)
    | .ok (some v) => .ok (.ptr (.iface v))
  | _ =>
    match rawData with
    | .null => .ok (.ptr (zeroOfType fuel elemT))
    | _ =>
      match core (.std elemT rawData) with
      | .error e =>
        .error (.wrap ("failed to unmarshal pointer field " ++ fieldName) e)
      | .ok v => .ok (.ptr v)

/-- `hasEmbeddedFields`: whether any member of the embedded group appears
among the raw JSON keys. -/
def hasEmbeddedFields (emetas : List GoFieldMeta)
    (rawFields : List (String × Json)) : Bool :=
  emetas.any (fun m =>
    let n := parseJSONTag m.jsonTag
    n ≠ "" && (lookupLast rawFields n).isSome)

/-- The field loop shared by `SmartUnmarshalJSON` and
`unmarshalEmbeddedFields`: decode each declared field in order, stopping at
the first error. -/
def smartFieldsLoop (decodeField : GoFieldMeta → Except GoErr GoVal) :
    List GoFieldMeta → Except GoErr (List (GoFieldMeta × GoVal))
  | [] => .ok []
  | em :: rest =>
    match decodeField em with
    | .error e => .error e
    | .ok v =>
      match smartFieldsLoop decodeField rest with
      | .error e => .error e
      | .ok tail => .ok ((em, v) :: tail)

/-- `smartUnmarshalSingleField` given the core: skip unexported and unnamed
fields, flatten embedded groups (`smartUnmarshalAnonymousField`: allocate a
pointer group only when one of its member keys occurs, then decode each
member from the same raw map), look the field's JSON name up in the raw map,
and dispatch on the field's kind (slice / interface / pointer / standard,
where a JSON `null` is a no-op keeping the current value). -/
def smartUnmarshalSingleFieldAux (core : UReq → Except GoErr GoVal) :
    Nat → List (String × Json) → GoFieldMeta → GoVal → Except GoErr GoVal
  | 0, _, _, _ => .error (.msg "model: fuel exhausted")
  | fuel + 1, rawFields, meta, cur =>
    if !meta.exported then .ok cur
    else if meta.anonymous then
      match meta.ftype with
      | .ptr (.struct etn) =>
        match structEnv etn with
        | none => .error (.msg "model: struct type not modelled")
        | some emetas =>
          if !hasEmbeddedFields emetas rawFields then .ok cur
          else
            match smartFieldsLoop (fun em =>
                smartUnmarshalSingleFieldAux core fuel rawFields em
                  (zeroOfType fuel em.ftype)) emetas with
            | .error e => .error e
            | .ok efields => .ok (.ptr (.struct etn efields))
      | .struct etn =>
        match structEnv etn with
        | none => .error (.msg "model: struct type not modelled")
        | some emetas =>
          match smartFieldsLoop (fun em =>
              smartUnmarshalSingleFieldAux core fuel rawFields em
                (zeroOfType fuel em.ftype)) emetas with
          | .error e => .error e
          | .ok efields => .ok (.struct etn efields)
      | _ => .ok cur
    else
      let fieldName := parseJSONTag meta.jsonTag
      if fieldName == "" then .ok cur
      else
        match lookupLast rawFields fieldName with
        | none => .ok cur
        | some rawData =>
          match meta.ftype with
          | .slice e => unmarshalSliceFieldFromRawAux core e rawData fieldName
          | .iface iname =>
            unmarshalInterfaceFieldFromRawAux core iname rawData fieldName cur
          | .ptr e => unmarshalPointerFieldFromRawAux core fuel e rawData fieldName
          | t =>
            match rawData with
            | .null => .ok cur
            | _ =>
              match core (.std t rawData) with
              | .error e =>
                .error (.wrap ("failed to unmarshal field " ++ fieldName) e)
              | .ok v => .ok v

/-- The standard-decoding arm of the core (`json.Unmarshal` into a fresh
value of a declared type): `null` is a no-op leaving the zero value; scalars
must match their kind (a number stored into an int must be whole); pointers
allocate and decode the pointee; slices and string maps decode elementwise; a
non-empty interface cannot be decoded into; structs dispatch to the type's
`UnmarshalJSON` method when it has one (`SmartUnmarshalJSON` for the card
types, the bespoke `TargetElement` and `GridColumnWidth` decoders) and to
plain per-field decoding otherwise. -/
def stdUnmarshalAux (core : UReq → Except GoErr GoVal) (fuel : Nat)
    (t : GoType) (j : Json) : Except GoErr GoVal :=
  match j with
  | .null => .ok (zeroOfType fuel t)
  | _ =>
    match t with
    | .str =>
      match j with
      | .str s => .ok (.str s)
      | _ => .error (.msg "json: cannot unmarshal value into Go value of type string")
    | .boolean =>
      match j with
      | .boolean b => .ok (.boolean b)
      | _ => .error (.msg "json: cannot unmarshal value into Go value of type bool")
    | .int =>
      match j with
      | .num x =>
        if x.isWhole then .ok (.int x.toInt)
        else .error (.msg "json: cannot unmarshal number into Go value of type int")
      | _ => .error (.msg "json: cannot unmarshal value into Go value of type int")
    | .float =>
      match j with
      | .num x => .ok (.float x)
      | _ => .error (.msg "json: cannot unmarshal value into Go value of type float64")
    | .ptr e =>
      match core (.std e j) with
      | .error er => .error er
      | .ok v => .ok (.ptr v)
    | .slice e =>
      match j with
      | .arr xs =>
        match xs.mapM (fun x => core (.std e x)) with
        | .error er => .error er
        | .ok vs => .ok (.slice vs)
      | _ => .error (.msg "json: cannot unmarshal value into Go slice value")
    | .strMap =>
      match j with
      | .obj ms =>
        match ms.mapM (fun kv =>
          match kv.2 with
          | Json.str s => Except.ok (kv.1, s)
          | Json.null => Except.ok (kv.1, "")
          | _ =>
            Except.error
              (GoErr.msg "json: cannot unmarshal value into Go value of type string")) with
        | .error er => .error er
        | .ok entries => .ok (.strMap entries)
      | _ => .error (.msg "json: cannot unmarshal value into Go map value")
    | .iface iname =>
      if iname == "any" then decodeIntoAny fuel j
      else .error (.msg "json: cannot unmarshal value into non-empty interface")
    | .struct tn =>
      if tn == "TargetElement" then
        match TargetElementUnmarshalJSON fuel j "" none with
        | .ok eid vis => .ok (teVal eid vis)
        | .err e => .error e
        | .diverged => .error (.msg "model: TargetElement decode does not terminate")
      else if tn == "GridColumnWidth" then GridColumnWidthUnmarshalJSON fuel j
      else if smartUnmarshalTypes.contains tn then core (.smart tn j)
      else
        -- Plain encoding/json struct decoding (no method): read each tagged
        -- exported field's key (exact-case model) from the object.
        match j with
        | .obj ms =>
          match structEnv tn with
          | none => .error (.msg "model: struct type not modelled")
          | some metas =>
            match smartFieldsLoop (fun m =>
              let n := tagHead m.jsonTag
              if ¬ m.exported ∨ m.jsonTag == "" ∨ m.jsonTag == "-" then
                .ok (zeroOfType fuel m.ftype)
              else
                match lookupLast ms n with
                | none => .ok (zeroOfType fuel m.ftype)
                | some raw => core (.std m.ftype raw)) metas with
            | .error e => .error e
            | .ok fields => .ok (.struct tn fields)
        | _ => .error (.msg "json: cannot unmarshal value into Go struct value")

/-- The `SmartUnmarshalJSON` arm of the core: split the payload into a raw
field map (an object; `null` leaves the map empty; anything else is a type
error), then decode each declared field of the zero target in order. -/
def smartUnmarshalAux (core : UReq → Except GoErr GoVal) (fuel : Nat)
    (tname : String) (j : Json) : Except GoErr GoVal :=
  match structEnv tname with
  | none => .error (.msg "model: struct type not modelled")
  | some metas =>
    match (match j with
           | .obj ms => some ms
           | .null => some []
           | _ => none) with
    | none =>
      .error (.msg "json: cannot unmarshal value into Go map of raw messages")
    | some ms =>
      match smartFieldsLoop (fun m =>
          smartUnmarshalSingleFieldAux core fuel ms m (zeroOfType fuel m.ftype))
          metas with
      | .error e => .error e
      | .ok fields => .ok (.struct tname fields)

/-- The fueled decoding core tying the knot between plain `encoding/json`
decoding and `SmartUnmarshalJSON`. -/
def unmarshalCore : Nat → UReq → Except GoErr GoVal
  | 0, _ => .error (.msg "model: fuel exhausted")
  | fuel + 1, .std t j => stdUnmarshalAux (unmarshalCore fuel) fuel t j
  | fuel + 1, .smart tname j => smartUnmarshalAux (unmarshalCore fuel) fuel tname j

/-- `SmartUnmarshalJSON(data, target)` on a zero target of the named struct
type, at a given recursion budget. -/
def SmartUnmarshalJSON (fuel : Nat) (tname : String) (j : Json) :
    Except GoErr GoVal :=
  unmarshalCore fuel (.smart tname j)

/-- Plain `json.Unmarshal(j, new(T))` at a given recursion budget. -/
def stdUnmarshal (fuel : Nat) (t : GoType) (j : Json) : Except GoErr GoVal :=
  unmarshalCore fuel (.std t j)

/-- `dynamicUnmarshaling[T]` at a given recursion budget. -/
def dynamicUnmarshaling (fuel : Nat) (iname : String) (j : Json) :
    Except GoErr GoVal :=
  dynamicUnmarshalingAux (unmarshalCore fuel) iname j

/-- `unmarshalMessages[T]` at a given recursion budget. -/
def unmarshalMessages (fuel : Nat) (iname : String) (items : List Json) :
    Except GoErr (List GoVal) :=
  unmarshalMessagesAux (unmarshalCore fuel) iname items 0

/-- `unmarshalFallback` at a given recursion budget. -/
def unmarshalFallback (fuel : Nat) (j : Json) : Except GoErr GoVal :=
  unmarshalFallbackAux (unmarshalCore fuel) j

/-! ## Concrete values and payloads for the codec claims -/

/-- A `TextBlock` value with the given `Text` pointer and `Wrap` flag, all
other fields zero. -/
def textBlockTW (text : GoVal) (w : Bool) : GoVal :=
  mkStruct "TextBlock" textBlockMetas [("Wrap", .boolean w), ("Text", text)]

/-- The zero `TextBlock` value. -/
def tbZero : GoVal := textBlockTW .ptrNil false

/-- A `TextBlock` whose `Text` points at the empty string. -/
def tbEmptyText : GoVal := textBlockTW (.ptr (.str "")) false

/-- A `TextBlock` whose `Text` points at "hello". -/
def tbHello : GoVal := textBlockTW (.ptr (.str "hello")) false

/-- An `ActionOpenURL` value with the given URL, group pointer nil. -/
def aouVal (url : String) : GoVal :=
  mkStruct "ActionOpenURL" actionOpenURLMetas [("URL", .str url)]

/-- Distinguishes the two sides of the round-trip counterexample: whether the
`Text` field of a struct value is the nil pointer. -/
def textFieldIsNil (v : GoVal) : Bool :=
  match v with
  | .struct _ fields =>
    match getFieldVal fields "Text" with
    | some .ptrNil => true
    | _ => false
  | _ => false

/-- A payload carrying an explicit "type" discriminant of a different
registered variant than the decode target. -/
def c4Payload : Json := .obj [("type", .str "Image"), ("text", .str "hello")]

/-- A recognized body element payload. -/
def tbHiJson : Json := .obj [("type", .str "TextBlock"), ("text", .str "hi")]

/-- A payload with a discriminant absent from the registry. -/
def bogusJson : Json := .obj [("type", .str "Bogus")]

/-- A `TextBlock` with text "hi". -/
def tbHi : GoVal := textBlockTW (.ptr (.str "hi")) false

/-- The fallback-as-Element payload of the package's own test. -/
def fallbackElemPayload : Json :=
  .obj [("type", .str "TextBlock"), ("text", .str "Fallback content")]

/-- The decoded fallback `TextBlock`. -/
def tbFallbackContent : GoVal := textBlockTW (.ptr (.str "Fallback content")) false

/-- A fallback payload carrying an action discriminant: rejected by the
string and `Element` shapes, accepted by the `Action` shape. -/
def fallbackActionPayload : Json :=
  .obj [("type", .str "Action.OpenUrl"), ("url", .str "https://example.com")]

/-- **C1 (counterexample)** — Round-trip is not the identity on every value
of a registered variant: serializing the zero `TextBlock` emits "text": null
(its `text` tag has no omitempty), and decoding that null allocates a fresh
pointee, so the value comes back with `Text` pointing at the empty string
instead of the nil pointer it started with. -/
theorem claim_C1_counterexample :
    (SmartMarshalFromJSON 12 tbZero).bind (SmartUnmarshalJSON 12 "TextBlock") =
      .ok tbEmptyText ∧
    tbEmptyText ≠ tbZero := by
  refine ⟨rfl, fun h => ?_⟩
  have h2 := congrArg textFieldIsNil h
  exact absurd h2 (by decide)

/-- **C1 (amended)** — Round-trip is the identity on two concrete families
(not on every variant value): for every text `s` and wrap flag `w`, the
`TextBlock` with `Text` pointing at `s`, `Wrap` equal to `w` and all other
fields zero decodes from its own serialization unchanged, and likewise the
`ActionOpenURL` with any URL and all other fields zero.  (The unamended
universal claim fails, e.g. at the zero `TextBlock`, whose nil `Text` comes
back as a pointer to the empty string.) -/
theorem claim_C1_roundtrip_amended :
    (∀ (s : String) (w : Bool),
      (SmartMarshalFromJSON 12 (textBlockTW (.ptr (.str s)) w)).bind
        (SmartUnmarshalJSON 12 "TextBlock") =
        .ok (textBlockTW (.ptr (.str s)) w)) ∧
    (∀ url : String,
      (SmartMarshalFromJSON 12 (aouVal url)).bind
        (SmartUnmarshalJSON 12 "ActionOpenURL") = .ok (aouVal url)) := by
  refine ⟨fun s w => ?_, fun url => rfl⟩
  cases w <;> rfl

/-- **C3** — The toggle-visibility target codec does not deliver the claimed
behaviour: (1) decoding the object form never returns — the second attempt,
`json.Unmarshal(data, &t)`, re-enters `TargetElement.UnmarshalJSON` on the
same bytes, so for every recursion budget the decode is still running; (2)
decoding the bare-string form does succeed; (3) encoding with the visibility
override present fails, because `SmartMarshalFromJSON` cannot find
`TargetElement` in the registry; (4) encoding without the override yields the
compact string form. -/
theorem claim_C3_target_element :
    (∀ (fuel : Nat) (eid : String) (vis : Option Bool),
      TargetElementUnmarshalJSON fuel
        (.obj [("elementId", .str "x"), ("isVisible", .boolean false)]) eid vis =
        .diverged) ∧
    (∀ (fuel : Nat) (s eid : String) (vis : Option Bool),
      TargetElementUnmarshalJSON (fuel + 1) (.str s) eid vis = .ok s vis) ∧
    (∀ fuel : Nat,
      marshalValue (fuel + 1) (teVal "x" (some false)) =
        .error (.msg "unable to find type in registry. Is it registered?")) ∧
    (∀ (fuel : Nat) (eid : String),
      marshalValue (fuel + 1) (teVal eid none) = .ok (.str eid)) := by
  refine ⟨fun fuel => ?_, fun _ _ _ _ => rfl, fun _ => rfl, fun _ _ => rfl⟩
  induction fuel with
  | zero => intro eid vis; rfl
  | succ n ih => intro eid vis; exact ih eid vis

/-- **C4 (counterexample)** — Decoding a payload whose explicit "type" is the
discriminant of a different registered variant ("Image") into the concrete
target `TextBlock` does not fail with a type mismatch: `SmartUnmarshalJSON`
never consults the payload's "type" key, so the decode succeeds and fills the
declared fields. -/
theorem claim_C4_counterexample :
    SmartUnmarshalJSON 12 "TextBlock" c4Payload = .ok tbHello ∧
    ∀ e, SmartUnmarshalJSON 12 "TextBlock" c4Payload ≠ Except.error e := by
  have h0 : SmartUnmarshalJSON 12 "TextBlock" c4Payload = .ok tbHello := rfl
  refine ⟨h0, fun e h => ?_⟩
  rw [h0] at h
  exact Except.noConfusion h

/-- **C4 (amended)** — The explicit-"type" mismatch check lives in
`ValidateType` (used on the concrete fast paths of slice and single-field
decoding), not in `SmartUnmarshalJSON`: `ValidateType` raises
`AdaptiveCardErrorInvalid{expected, actual}` exactly when the payload carries
a non-empty "type" different from the target's registered discriminant, and
passes when the "type" key is absent — in which case decoding of the declared
fields proceeds. -/
theorem claim_C4_amended :
    (∀ actual : String, actual ≠ "" → actual ≠ "TextBlock" →
      ValidateType (.obj [("type", .str actual)]) (.struct "TextBlock") =
        .error (.invalidType "TextBlock" actual)) ∧
    ValidateType (.obj [("text", .str "hi")]) (.struct "TextBlock") = .ok () ∧
    SmartUnmarshalJSON 12 "TextBlock" (.obj [("text", .str "hi")]) = .ok tbHi := by
  refine ⟨fun actual h1 h2 => ?_, rfl, rfl⟩
  have h3 : ValidateType (.obj [("type", .str actual)]) (.struct "TextBlock") =
      if actual ≠ "" ∧ actual ≠ "TextBlock" then .error (.invalidType "TextBlock" actual)
      else .ok () := rfl
  rw [h3, if_pos ⟨h1, h2⟩]

/-- Closed instance discharging the hypotheses of `claim_C4_amended`: the
"Image" discriminant against a `TextBlock` target. -/
theorem claim_C4_amended_witness :
    ValidateType (.obj [("type", .str "Image")]) (.struct "TextBlock") =
      .error (.invalidType "TextBlock" "Image") :=
  claim_C4_amended.1 "Image" (by decide) (by decide)

/-! ## Claim C5: per-element decoding of polymorphic sequences -/

/-- The result a sequence decode keeps for one element: its decoded value, or
nothing when the element errors (in particular on an unknown
discriminant). -/
def dynOk (fuel : Nat) (iname : String) (j : Json) : Option GoVal :=
  match dynamicUnmarshaling fuel iname j with
  | .ok v => some v
  | .error _ => none

/-- Whether one element either decodes or fails only with the
silently-skipped unknown-discriminant error. -/
def okOrUnknown (fuel : Nat) (iname : String) (j : Json) : Bool :=
  match dynamicUnmarshaling fuel iname j with
  | .ok _ => true
  | .error e => isUnknownErr e

/-- The hard (propagated) error of one element, if any. -/
def hardErr (fuel : Nat) (iname : String) (j : Json) : Option GoErr :=
  match dynamicUnmarshaling fuel iname j with
  | .ok _ => none
  | .error e => if isUnknownErr e then none else some e

/-- When every element is decodable-or-unknown, the sequence loop returns the
decoded values of the recognized elements, in their original relative
order. -/
theorem unmarshalMessagesAux_ok (fuel : Nat) (iname : String) :
    ∀ (items : List Json) (i : Nat),
      (∀ j ∈ items, okOrUnknown fuel iname j = true) →
      unmarshalMessagesAux (unmarshalCore fuel) iname items i =
        .ok (items.filterMap (dynOk fuel iname)) := by
  intro items
  induction items with
  | nil => intro i _; rfl
  | cons j rest ih =>
    intro i h
    have hj := h j (List.mem_cons_self j rest)
    have hrest : ∀ k ∈ rest, okOrUnknown fuel iname k = true :=
      fun k hk => h k (List.mem_cons_of_mem j hk)
    simp only [unmarshalMessagesAux, List.filterMap_cons]
    cases hdyn : dynamicUnmarshalingAux (unmarshalCore fuel) iname j with
    | ok v =>
      have hd : dynOk fuel iname j = some v := by
        simp [dynOk, dynamicUnmarshaling, hdyn]
      simp [hd, ih (i + 1) hrest]
    | error e =>
      have hu : isUnknownErr e = true := by
        simpa only [okOrUnknown, dynamicUnmarshaling, hdyn] using hj
      have hd : dynOk fuel iname j = none := by
        simp [dynOk, dynamicUnmarshaling, hdyn]
      simp [hd, hu, ih (i + 1) hrest]

/-- When a prefix is decodable-or-unknown and the next element fails hard,
the loop propagates that element's error, annotated with its index (which
counts every element of the prefix, skipped or not). -/
theorem unmarshalMessagesAux_err (fuel : Nat) (iname : String)
    (bad : Json) (rest : List Json) (e : GoErr) :
    ∀ (pre : List Json) (i : Nat),
      (∀ j ∈ pre, okOrUnknown fuel iname j = true) →
      hardErr fuel iname bad = some e →
      unmarshalMessagesAux (unmarshalCore fuel) iname (pre ++ bad :: rest) i =
        .error (.wrap ("failed to unmarshal type at index " ++
          toString (i + pre.length)) e) := by
  intro pre
  induction pre with
  | nil =>
    intro i _ hbad
    simp only [List.nil_append, unmarshalMessagesAux]
    cases hdyn : dynamicUnmarshalingAux (unmarshalCore fuel) iname bad with
    | ok v =>
      exfalso
      simp [hardErr, dynamicUnmarshaling, hdyn] at hbad
    | error e2 =>
      have h2 : isUnknownErr e2 = false ∧ e2 = e := by
        simp only [hardErr, dynamicUnmarshaling, hdyn] at hbad
        cases hu : isUnknownErr e2 with
        | true => rw [hu] at hbad; simp at hbad
        | false => rw [hu] at hbad; simp at hbad; exact ⟨rfl, hbad⟩
      obtain ⟨hfalse, hee⟩ := h2
      subst hee
      simp [hfalse]
  | cons j pre ih =>
    intro i h hbad
    have hj := h j (List.mem_cons_self j pre)
    have hpre : ∀ k ∈ pre, okOrUnknown fuel iname k = true :=
      fun k hk => h k (List.mem_cons_of_mem j hk)
    have harith : i + 1 + pre.length = i + (j :: pre).length := by
      simp only [List.length_cons]; omega
    simp only [List.cons_append, unmarshalMessagesAux]
    cases hdyn : dynamicUnmarshalingAux (unmarshalCore fuel) iname j with
    | ok v =>
      simp only [List.append_eq] at ih ⊢
      simp [ih (i + 1) hpre hbad, harith]
    | error e2 =>
      have hu : isUnknownErr e2 = true := by
        simpa only [okOrUnknown, dynamicUnmarshaling, hdyn] using hj
      simp only [List.append_eq] at ih ⊢
      simp [hu, ih (i + 1) hpre hbad, harith]

/-- **C5** — Sequence fields of a polymorphic category decode each element
independently: when every element either decodes or carries an unregistered
discriminant, the result is exactly the recognized elements in their original
relative order (unrecognized ones silently skipped, so the count may shrink);
and when some element fails with any other error, and everything before it
was decodable-or-unknown, that error propagates (annotated with the element's
index). -/
theorem claim_C5_sequence_decoding (fuel : Nat) (iname : String)
    (items : List Json) :
    ((∀ j ∈ items, okOrUnknown fuel iname j = true) →
      unmarshalMessages fuel iname items =
        .ok (items.filterMap (dynOk fuel iname))) ∧
    (∀ (pre : List Json) (bad : Json) (rest : List Json) (e : GoErr),
      items = pre ++ bad :: rest →
      (∀ j ∈ pre, okOrUnknown fuel iname j = true) →
      hardErr fuel iname bad = some e →
      unmarshalMessages fuel iname items =
        .error (.wrap ("failed to unmarshal type at index " ++
          toString pre.length) e)) := by
  constructor
  · intro h
    exact unmarshalMessagesAux_ok fuel iname items 0 h
  · intro pre bad rest e heq hpre hbad
    subst heq
    have := unmarshalMessagesAux_err fuel iname bad rest e pre 0 hpre hbad
    simpa using this

/-- Closed instance discharging the hypotheses of
`claim_C5_sequence_decoding`: a recognized `TextBlock` followed by an
unregistered "Bogus" discriminant decodes to the single recognized element
(no error), and a non-object element propagates a hard error at its index. -/
theorem claim_C5_witness :
    unmarshalMessages 12 "Element" [tbHiJson, bogusJson] =
      .ok ([tbHiJson, bogusJson].filterMap (dynOk 12 "Element")) ∧
    unmarshalMessages 12 "Element" [tbHiJson, bogusJson] = .ok [.ptr tbHi] ∧
    unmarshalMessages 12 "Element" [tbHiJson, Json.num ⟨5, 0⟩] =
      .error (.wrap "failed to unmarshal type at index 1"
        (.join (.msg "failed to detect element type")
          (.msg "json: cannot unmarshal value into Go value of struct type"))) := by
  refine ⟨(claim_C5_sequence_decoding 12 "Element" _).1 (by decide), rfl, ?_⟩
  exact (claim_C5_sequence_decoding 12 "Element" _).2 [tbHiJson] (Json.num ⟨5, 0⟩)
    [] _ rfl (by decide) (by decide)

/-! ## Claims C6 and C10: the ordered fallback decoder -/

/-- **C6** — The fallback decoder commits to shapes in the fixed order
string, `Element`, `Action`: every JSON string decodes to the enumeration
value (so "drop" in particular is never attempted as an `Element`); an object
shape that the string attempt rejects is decoded as an `Element`; a payload
carrying an action discriminant is rejected by the string shape (not a
string) and by the `Element` shape (`ActionOpenURL` does not implement
`Element`, a hard error) yet decodes through the third, `Action`, stage to
the pointer-boxed `ActionOpenURL`; and a payload matching none of the three
shapes (such as a bare number) yields the decoder's error. -/
theorem claim_C6_fallback_order :
    (∀ (fuel : Nat) (s : String),
      unmarshalFallback fuel (.str s) = .ok (.fallbackOption s)) ∧
    (∀ fuel : Nat,
      unmarshalFallback fuel (.str "drop") = .ok (.fallbackOption "drop")) ∧
    unmarshalFallback 12 fallbackElemPayload = .ok (.ptr tbFallbackContent) ∧
    (tryStringInto fallbackActionPayload "" = none ∧
     unmarshalMessageAux (unmarshalCore 12) "Element" fallbackActionPayload =
       .error (.wrap "failed to unmarshal Element"
         (.msg "type does not implement interface")) ∧
     unmarshalFallback 12 fallbackActionPayload =
       .ok (.ptr (aouVal "https://example.com"))) ∧
    (∀ fuel : Nat,
      unmarshalFallback fuel (.num ⟨5, 0⟩) =
        .error (.msg "fallback must be either FallbackOption, Element, or Action")) :=
  ⟨fun _ _ => rfl, fun _ => rfl, rfl, ⟨rfl, rfl, rfl⟩, fun _ => rfl⟩

/-- **C10** — The string shape of the fallback decoder accepts every JSON
string: for every `s`, the payload decodes to `FallbackOption(s)` with no
check against known degradation directives, so no string payload is ever
tried as an `Element` or `Action` or rejected. -/
theorem claim_C10_fallback_any_string :
    ∀ (fuel : Nat) (s : String),
      unmarshalFallback fuel (.str s) = .ok (.fallbackOption s) :=
  fun _ _ => rfl

/-! ## Claim C7: the grid column width codec -/

/-- **C7** — The grid column width decoder accepts a whole-number JSON
integer (stored in weight form) or a JSON string ending in "px" (stored as
the fixed-pixel string); a fractional number such as 1.5 is rejected with the
whole-number error; booleans and `null` (and any other JSON type reaching the
default case) are rejected; and encoding re-emits exactly the stored shape,
unchanged. -/
theorem claim_C7_grid_column_width :
    (∀ s : String, hasSuffixPx s = true →
      GridColumnWidthUnmarshalJSON 2 (.str s) = .ok (gcwVal (.iface (.str s))) ∧
      marshalValue 2 (gcwVal (.iface (.str s))) = .ok (.str s)) ∧
    (∀ n : Int,
      GridColumnWidthUnmarshalJSON 2 (.num ⟨n, 0⟩) =
        .ok (gcwVal (.iface (.int n))) ∧
      marshalValue 2 (gcwVal (.iface (.int n))) = .ok (.num ⟨n, 0⟩)) ∧
    GridColumnWidthUnmarshalJSON 2 (.num ⟨15, -1⟩) =
      .error (.msg "invalid value: GridColumnWidth must be a whole number") ∧
    (∀ b : Bool, GridColumnWidthUnmarshalJSON 2 (.boolean b) =
      .error (.msg "invalid type for GridColumnWidth")) ∧
    GridColumnWidthUnmarshalJSON 2 .null =
      .error (.msg "invalid type for GridColumnWidth") := by
  refine ⟨fun s h => ⟨?_, rfl⟩, fun n => ⟨rfl, rfl⟩, rfl, fun b => by cases b <;> rfl, rfl⟩
  have h2 : GridColumnWidthUnmarshalJSON 2 (.str s) =
      if hasSuffixPx s then .ok (gcwVal (.iface (.str s)))
      else .error (.msg "invalid format: string values must end in px") := rfl
  rw [h2, if_pos h]

/-- Closed instance discharging the hypothesis of
`claim_C7_grid_column_width`: the "50px" payload decodes to the fixed-pixel
form and re-encodes unchanged. -/
theorem claim_C7_witness :
    GridColumnWidthUnmarshalJSON 2 (.str "50px") =
      .ok (gcwVal (.iface (.str "50px"))) ∧
    marshalValue 2 (gcwVal (.iface (.str "50px"))) = .ok (.str "50px") :=
  claim_C7_grid_column_width.1 "50px" (by decide)

/-! ## Claim C8: the serialization guarantee

The specification-level key sets of `marshalWithType`'s output: per field,
the keys it could ever emit (`fieldAllKeys`) and the keys it does emit under
the omitempty policy (`fieldEmittedKeys`), with composed groups flattened. -/

